import Mathlib

/-
Verification development for the batch GLB generation driver
(src/generate_glb.py).  Filenames are modelled as lists of characters;
the decimal formatting done by Python f-strings is modelled by natRepr,
and the filename regex and glob pattern of the source are modelled by
executable parsing and matching functions below.
-/

/-- Filenames and path-free names are lists of characters. -/

abbrev FName := List Char

/-- Decimal digit character for a value below ten, as produced by Python
when formatting a nonnegative integer. -/

def digitChar (d : Nat) : Char := Char.ofNat (48 + d)

/-- Numeric value of a decimal digit character, none for other characters.
This models the character class [0-9] of the filename regex at line 250. -/

def charDigit (c : Char) : Option Nat :=
  if 48 ≤ c.toNat ∧ c.toNat ≤ 57 then some (c.toNat - 48) else none

/-- Accumulating decimal parser over a list of characters. -/

def parseNatFrom (a : Nat) : FName → Option Nat
  | [] => some a
  | c :: cs =>
    match charDigit c with
    | some d => parseNatFrom (a * 10 + d) cs
    | none => none

/-- Decimal parser: a nonempty all-digit string denotes its value, as with
Python int() applied to a regex group matched by [0-9]+. -/

def parseNat (cs : FName) : Option Nat :=
  match cs with
  | [] => none
  | _ :: _ => parseNatFrom 0 cs

/-- Decimal representation of a natural number, most significant digit
first, exactly the text produced by a Python f-string for a nonnegative
int. -/

def natReprList (n : Nat) : FName :=
  if _h : n < 10 then [digitChar n]
  else natReprList (n / 10) ++ [digitChar (n % 10)]
termination_by n
decreasing_by
  exact Nat.div_lt_self (by omega) (by omega)

/-- Fuel-driven equivalent of natReprList that the kernel can evaluate. -/

def natReprCore : Nat → Nat → FName → FName
  | 0, _, acc => acc
  | fuel + 1, n, acc =>
    if n < 10 then digitChar n :: acc
    else natReprCore fuel (n / 10) (digitChar (n % 10) :: acc)

/-- Decimal representation used throughout the naming scheme. -/

def natRepr (n : Nat) : FName := natReprCore (n + 1) n []

/-- The artifact extension, the literal .glb of the source. -/

def glbExt : FName := ['.', 'g', 'l', 'b']

/-- Strip a trailing .glb from a filename.  Models the conjunction of the
endswith check at line 255 and the anchored literal in the regex at line
250 (within that guarded flow the dollar anchor is the true end of the
string, since the last character is then the letter b). -/

def dropGlb (cs : FName) : Option FName :=
  match cs.reverse with
  | 'b' :: 'l' :: 'g' :: '.' :: rest => some rest.reverse
  | _ => none

/-- Split a string at its last underscore: returns the part before it and
the part after it, none when no underscore occurs.  Used to model the
positional regex groups, each of which is a full underscore-delimited
trailing segment. -/

def splitLastUnd (cs : FName) : Option (FName × FName) :=
  let r := cs.reverse
  match r.dropWhile (fun c => c != '_') with
  | '_' :: rest => some (rest.reverse, (r.takeWhile (fun c => c != '_')).reverse)
  | _ => none

/-- Generation parameter set, in the field order in which the fields are
embedded in an artifact filename at lines 132 and 161 of the source:
octree resolution, inference steps, guidance scale, face count. -/

structure ParameterSet where
  octree : Nat
  num_inference_steps : Nat
  guidance_scale : Nat
  face_count : Nat
deriving DecidableEq

/-- Artifact filename built at lines 130-133 and 159-162:
base, octree, steps, guidance, face count, seed, joined by underscores,
with the .glb extension. -/

def buildName (base : FName) (p : ParameterSet) (seed : Nat) : FName :=
  base ++ '_' :: natRepr p.octree ++ '_' :: natRepr p.num_inference_steps ++
    '_' :: natRepr p.guidance_scale ++ '_' :: natRepr p.face_count ++
    '_' :: natRepr seed ++ glbExt

/-- Parser for artifact filenames, modelling the guarded regex match of
process_glb_upscaling (lines 250, 255-262): the filename must end in .glb,
the five trailing underscore-delimited fields must be nonempty digit
strings, and the leading group, matched by a dot-star that cannot cross a
newline, must contain no newline character. -/

def parseName (cs : FName) : Option (FName × ParameterSet × Nat) := do
  let t ← dropGlb cs
  let (r1, e5) ← splitLastUnd t
  let seed ← parseNat e5
  let (r2, e4) ← splitLastUnd r1
  let fc ← parseNat e4
  let (r3, e3) ← splitLastUnd r2
  let gs ← parseNat e3
  let (r4, e2) ← splitLastUnd r3
  let steps ← parseNat e2
  let (b, e1) ← splitLastUnd r4
  let oct ← parseNat e1
  if '\n' ∈ b then none
  else some (b, ⟨oct, steps, gs, fc⟩, seed)

/-- The literal part of the glob pattern built at line 121: base name and
the four parameter fields, each followed by an underscore.  The full
pattern is this head, then the seed wildcard, then .glb. -/

def patternHead (base : FName) (p : ParameterSet) : FName :=
  base ++ '_' :: natRepr p.octree ++ '_' :: natRepr p.num_inference_steps ++
    '_' :: natRepr p.guidance_scale ++ '_' :: natRepr p.face_count ++ ['_']

/-- Whether a directory entry matches the glob pattern of line 121.  The
pattern is the literal head, a star for the seed field, and the literal
extension; the star of fnmatch matches any character sequence within one
path segment, so a name matches exactly when it has the literal head as a
prefix and the extension as a suffix of the remainder. -/

def matchesPat (base : FName) (p : ParameterSet) (file : FName) : Bool :=
  (patternHead base p).isPrefixOf file &&
    glbExt.isSuffixOf (file.drop (patternHead base p).length)

/-- The Existence Oracle of lines 121-123 and 137-142: the number of
directory entries matching the glob pattern. -/

def countMatching (dir : List FName) (base : FName) (p : ParameterSet) : Nat :=
  (dir.filter (fun f => matchesPat base p f)).length

/-- Environment of one pass of the while loop of process_image: the value
the random number generator would produce for this pass, whether the POST
request would succeed, and whether writing the response to disk would
succeed. -/

structure Attempt where
  draw : Nat
  netOk : Bool
  writeOk : Bool

/-- Observable outcome of one pass of the while loop, mirroring the log
lines of the source: the skip of line 163, the request failure of line
179, the save of line 187, and the save failure of line 189. -/

inductive LoopEvent where
  | earlyExit
  | skipExisting
  | requestFailed
  | saved
  | saveFailed
deriving DecidableEq

/-- State threaded through the while loop of process_image: the output
directory contents, the count variable of line 120 (incremented at line
193 only after a request succeeded), the emitted events, and the number
of POST requests sent. -/

structure LoopSt where
  dir : List FName
  count : Nat
  events : List LoopEvent
  requests : Nat
deriving DecidableEq

/-- Seed resolution of lines 145-148: the fixed seed when one is
configured, else the fresh random draw of this pass. -/

def seed_current (seed : Option Nat) (draw : Nat) : Nat :=
  match seed with
  | none => draw
  | some s => s

/-- One pass of the while loop body, lines 144-193: resolve the seed,
build the candidate name, skip if it already exists, otherwise send the
request; on request failure continue, otherwise write the file (adding it
to the directory when the write succeeds) and increment count. -/

def loopBody (base : FName) (seed : Option Nat) (p : ParameterSet)
    (st : LoopSt) (a : Attempt) : LoopSt :=
  let out := buildName base p (seed_current seed a.draw)
  if out ∈ st.dir then
    { st with events := st.events ++ [LoopEvent.skipExisting] }
  else if a.netOk then
    if a.writeOk then
      { st with
          dir := out :: st.dir
          count := st.count + 1
          events := st.events ++ [LoopEvent.saved]
          requests := st.requests + 1 }
    else
      { st with
          count := st.count + 1
          events := st.events ++ [LoopEvent.saveFailed]
          requests := st.requests + 1 }
  else
    { st with
        events := st.events ++ [LoopEvent.requestFailed]
        requests := st.requests + 1 }

/-- Continuation condition of the while loop (lines 135-142): in upscale
mode, continue while no file matches the pattern; otherwise continue while
fewer matches exist than the desired number of iterations.  The glob is
re-evaluated on the live directory on every check. -/

def condition (upscale : Bool) (iterations : Nat) (base : FName)
    (p : ParameterSet) (dir : List FName) : Bool :=
  if upscale then countMatching dir base p == 0
  else decide (countMatching dir base p < iterations)

/-- Result of running the while loop: finished means the continuation
condition became false; outOfFuel means the condition still held when the
supplied attempt environments were exhausted. -/

inductive RunResult where
  | finished (st : LoopSt)
  | outOfFuel (st : LoopSt)
deriving DecidableEq

/-- Final state carried by a run result. -/

def RunResult.st : RunResult → LoopSt
  | RunResult.finished s => s
  | RunResult.outOfFuel s => s

/-- The while loop of lines 144-193, driven by a list of per-pass attempt
environments. -/

def runLoop (base : FName) (iterations : Nat) (seed : Option Nat)
    (p : ParameterSet) (upscale : Bool) : List Attempt → LoopSt → RunResult
  | as, st =>
    if condition upscale iterations base p st.dir then
      match as with
      | [] => RunResult.outOfFuel st
      | a :: rest => runLoop base iterations seed p upscale rest
          (loopBody base seed p st a)
    else RunResult.finished st

/-- process_image, lines 98-193.  The readable flag models the two fatal
checks of lines 104 and 113-118 (missing or unreadable source image);
none models the early return that aborts the image.  Otherwise the
pre-loop early exit of lines 123-128 fires when at least iterations
matches already exist, and the while loop runs otherwise. -/

def process_image (readable : Bool) (base : FName) (iterations : Nat)
    (seed : Option Nat) (p : ParameterSet) (upscale : Bool)
    (dir : List FName) (attempts : List Attempt) : Option RunResult :=
  if readable = false then none
  else if iterations ≤ countMatching dir base p then
    some (RunResult.finished ⟨dir, 0, [LoopEvent.earlyExit], 0⟩)
  else
    some (runLoop base iterations seed p upscale attempts ⟨dir, 0, [], 0⟩)

/-- Whether a filename starts with a period, the dotfile checks of lines
216 and 271. -/

def startsWithDot : FName → Bool
  | '.' :: _ => true
  | _ => false

/-- os.path.splitext restricted to the names this program applies it to
(names already past the dotfile guard): split at the last period, the
extension including the period; no period gives an empty extension. -/

def splitExt (cs : FName) : FName × FName :=
  let r := cs.reverse
  match r.dropWhile (fun c => c != '.') with
  | '.' :: rest => (rest.reverse, '.' :: (r.takeWhile (fun c => c != '.')).reverse)
  | _ => (cs, [])

/-- ASCII lowercasing, agreeing with Python str.lower on every character
occurring in the extension comparisons below. -/

def lowerName (cs : FName) : FName := cs.map Char.toLower

/-- The accepted source image extensions of process_folder, line 211. -/

def valid_extensions_folder : List FName :=
  [('.' :: ['j', 'p', 'g']), ('.' :: ['j', 'p', 'e', 'g']), ('.' :: ['p', 'n', 'g']),
   ('.' :: ['g', 'i', 'f']), ('.' :: ['b', 'm', 'p']), ('.' :: ['t', 'i', 'f', 'f'])]

/-- The accepted source image extensions of process_glb_upscaling,
line 251. -/

def valid_extensions_upscale : List FName :=
  [('.' :: ['j', 'p', 'g']), ('.' :: ['j', 'p', 'e', 'g']), ('.' :: ['p', 'n', 'g'])]

/-- The filter of lines 213-218: not a dotfile and an accepted image
extension, case-insensitively.  Directory entries are modelled as the
names of the regular files of the input directory, so the isfile check
holds by assumption. -/

def valid_image_file (f : FName) : Bool :=
  !(startsWithDot f) && (lowerName (splitExt f).2) ∈ valid_extensions_folder

/-- The source image search of lines 269-276: the candidate is not a
dotfile, its base name equals the parsed base name, and its extension is
jpg, jpeg or png case-insensitively. -/

def source_image_ok (base : FName) (fname : FName) : Bool :=
  !(startsWithDot fname) && (splitExt fname).1 == base &&
    (lowerName (splitExt fname).2) ∈ valid_extensions_upscale

/-- The first matching source image in input directory listing order,
mirroring the for loop with break of lines 270-276. -/

def find_source_image (inputFiles : List FName) (base : FName) : Option FName :=
  inputFiles.find? (fun f => source_image_ok base f)

/-- The comparison of line 263: the artifact is treated as matching the
current settings when its parsed octree resolution, inference steps and
guidance scale are each at least the configured value.  The parsed face
count is not consulted. -/

def matches_current_settings (fileP target : ParameterSet) : Bool :=
  decide (target.octree ≤ fileP.octree) &&
    decide (target.num_inference_steps ≤ fileP.num_inference_steps) &&
    decide (target.guidance_scale ≤ fileP.guidance_scale)

/-- The arguments of one process_image invocation as issued by the batch
driver. -/

structure LoopCall where
  image : FName
  iterations : Nat
  seed : Option Nat
  params : ParameterSet
  upscale : Bool
deriving DecidableEq

/-- Decision taken by process_glb_upscaling for one file of the output
directory walk (lines 254-298). -/

inductive UpscaleAction where
  | skipNoParse
  | skipAdequate
  | skipNoSource
  | regen (call : LoopCall)
deriving DecidableEq

/-- Per-file behaviour of process_glb_upscaling, lines 254-298: parse the
filename (the endswith guard and the regex); on parse failure skip; if the
parsed parameters match the current settings skip; otherwise look for the
source image; if none report and skip; else invoke process_image with one
iteration, the parsed seed, the configured target parameters, and the
upscale flag (true in this mode, since main dispatches here only when the
configured upscale flag is set). -/

def upscale_file_action (inputFiles : List FName) (target : ParameterSet)
    (file : FName) : UpscaleAction :=
  match parseName file with
  | none => UpscaleAction.skipNoParse
  | some (b, fileP, fileSeed) =>
    if matches_current_settings fileP target then UpscaleAction.skipAdequate
    else
      match find_source_image inputFiles b with
      | none => UpscaleAction.skipNoSource
      | some img => UpscaleAction.regen ⟨img, 1, some fileSeed, target, true⟩

/-- Lexicographic order on filenames by character code, the order Python
sorts strings in at line 227. -/

def lexLt : FName → FName → Bool
  | [], [] => false
  | [], _ :: _ => true
  | _ :: _, [] => false
  | a :: as, b :: bs =>
    if a.toNat < b.toNat then true
    else if b.toNat < a.toNat then false
    else lexLt as bs

/-- Insert into a sorted list of names. -/

def insertName (x : FName) : List FName → List FName
  | [] => [x]
  | y :: ys => if lexLt y x then y :: insertName x ys else x :: y :: ys

/-- Sort a list of names, modelling the sort of line 227. -/

def sortNames : List FName → List FName
  | [] => []
  | x :: xs => insertName x (sortNames xs)

/-- Python runtime error raised when a call supplies fewer positional
arguments than the callee declares without defaults. -/

inductive PyErr where
  | typeErr
deriving DecidableEq

/-- Number of parameters of process_image, line 98; none has a default. -/

def process_image_param_count : Nat := 10

/-- Number of positional arguments supplied by the call to process_image
at line 229 of process_folder: image, iterations, output, seed, octree,
num_inference_steps, face_count, guidance_scale, endpoint_url. -/

def process_folder_call_arg_count : Nat := 9

/-- The call of line 229.  Python raises TypeError before the callee body
runs when a required positional argument is missing, so the body of
process_image is unreachable from this call site and the else branch is
dead. -/

def line229_call (_img : FName) : Except PyErr Unit :=
  if process_folder_call_arg_count < process_image_param_count then
    Except.error PyErr.typeErr
  else Except.ok ()

/-- process_folder, lines 197-229: filter the input listing to valid
image files, return normally when none remain (an error is printed but
the process continues), otherwise sort and call process_image on each
image in order.  The call site omits the upscale argument. -/

def process_folder (inputFiles : List FName) : Except PyErr Unit :=
  let image_files := inputFiles.filter valid_image_file
  if image_files.isEmpty then Except.ok ()
  else (sortNames image_files).foldlM (fun _ img => line229_call img) ()

/-- Python truthiness of the configured seed value as used at line 303:
an absent seed and the seed 0 are both falsy. -/

def pyTruthySeed : Option Int → Bool
  | none => false
  | some n => n != 0

/-- The precondition enforcement of main, lines 303-305: when the seed
is truthy and iterations is not 1, iterations is set to 1 and a warning
is printed.  Returns the resulting iteration count and whether the
warning was issued. -/

def coerce_iterations (seed : Option Int) (iterations : Int) : Int × Bool :=
  if pyTruthySeed seed && iterations != 1 then (1, true)
  else (iterations, false)

/-- Contract of random.randint(a, b) from the Python library
documentation: the result n satisfies a ≤ n and n ≤ b, both bounds
inclusive.  Line 146 draws randint(0, 10000000). -/

def randint_support (a b n : Int) : Prop := a ≤ n ∧ n ≤ b

theorem natReprCore_eq (fuel : Nat) :
    ∀ n acc, n < fuel → natReprCore fuel n acc = natReprList n ++ acc := by
  induction fuel with
  | zero => intro n acc h; omega
  | succ f ih =>
    intro n acc h
    by_cases h10 : n < 10
    · rw [natReprCore, if_pos h10, natReprList, dif_pos h10]
      simp
    · rw [natReprCore, if_neg h10, natReprList, dif_neg h10]
      rw [ih (n / 10) (digitChar (n % 10) :: acc) (by omega)]
      simp

theorem natRepr_eq (n : Nat) : natRepr n = natReprList n := by
  rw [natRepr, natReprCore_eq (n + 1) n [] (by omega), List.append_nil]

theorem digitChar_toNat (d : Nat) (h : d < 10) : (digitChar d).toNat = 48 + d := by
  interval_cases d <;> decide

theorem charDigit_digitChar (d : Nat) (h : d < 10) : charDigit (digitChar d) = some d := by
  rw [charDigit, if_pos (by rw [digitChar_toNat d h]; omega), digitChar_toNat d h]
  congr 1
  omega

theorem natReprList_digits (n : Nat) :
    ∀ c ∈ natReprList n, 48 ≤ c.toNat ∧ c.toNat ≤ 57 := by
  induction n using Nat.strong_induction_on with
  | _ n ih =>
    intro c hc
    by_cases h10 : n < 10
    · rw [natReprList, dif_pos h10] at hc
      simp at hc
      subst hc
      rw [digitChar_toNat n h10]
      omega
    · rw [natReprList, dif_neg h10] at hc
      rcases List.mem_append.mp hc with h1 | h2
      · exact ih (n / 10) (Nat.div_lt_self (by omega) (by omega)) c h1
      · simp at h2
        subst h2
        rw [digitChar_toNat (n % 10) (Nat.mod_lt n (by omega))]
        have := Nat.mod_lt n (show 0 < 10 by omega)
        omega

theorem natReprList_ne_nil (n : Nat) : natReprList n ≠ [] := by
  by_cases h10 : n < 10
  · rw [natReprList, dif_pos h10]; simp
  · rw [natReprList, dif_neg h10]; simp

theorem natRepr_digits (n : Nat) :
    ∀ c ∈ natRepr n, 48 ≤ c.toNat ∧ c.toNat ≤ 57 := by
  rw [natRepr_eq]; exact natReprList_digits n

theorem natRepr_no_underscore (n : Nat) : ∀ c ∈ natRepr n, c ≠ '_' := by
  intro c hc heq
  have := natRepr_digits n c hc
  rw [heq] at this
  exact absurd this (by decide)

theorem parseNatFrom_natReprList (n : Nat) :
    ∀ a ys, ∃ k, 0 < k ∧
      parseNatFrom a (natReprList n ++ ys) = parseNatFrom (a * k + n) ys := by
  induction n using Nat.strong_induction_on with
  | _ n ih =>
    intro a ys
    by_cases h10 : n < 10
    · refine ⟨10, by omega, ?_⟩
      rw [natReprList, dif_pos h10]
      simp only [List.cons_append, List.nil_append, parseNatFrom,
        charDigit_digitChar n h10]
      rfl
    · rw [natReprList, dif_neg h10, List.append_assoc]
      obtain ⟨k, hk, heq⟩ := ih (n / 10) (Nat.div_lt_self (by omega) (by omega)) a
        ([digitChar (n % 10)] ++ ys)
      refine ⟨k * 10, by omega, ?_⟩
      rw [heq]
      simp only [List.cons_append, List.nil_append, parseNatFrom,
        charDigit_digitChar (n % 10) (Nat.mod_lt n (by omega))]
      have : (a * k + n / 10) * 10 + n % 10 = a * (k * 10) + n := by
        have := Nat.div_add_mod n 10
        ring_nf
        omega
      rw [this]
      rfl

theorem parseNat_natRepr (n : Nat) : parseNat (natRepr n) = some n := by
  rw [natRepr_eq]
  have hne := natReprList_ne_nil n
  obtain ⟨k, _, heq⟩ := parseNatFrom_natReprList n 0 []
  rw [List.append_nil] at heq
  match hm : natReprList n with
  | [] => exact absurd hm hne
  | c :: cs =>
    rw [parseNat, ← hm, heq]
    simp [parseNatFrom]

theorem dropGlb_append (xs : FName) : dropGlb (xs ++ glbExt) = some xs := by
  rw [dropGlb]
  simp [glbExt, List.reverse_append]

theorem dropGlb_eq_some (cs t : FName) (h : dropGlb cs = some t) :
    cs = t ++ glbExt := by
  rw [dropGlb] at h
  split at h
  · next rest heq =>
    have hcs : cs = (('b' :: 'l' :: 'g' :: '.' :: rest)).reverse := by
      rw [← heq, List.reverse_reverse]
    simp at h
    rw [hcs, ← h]
    simp [glbExt]
  · exact absurd h (by simp)

theorem takeWhile_all_append (p : Char → Bool) (l t : FName) (x : Char)
    (h : ∀ c ∈ l, p c = true) (hx : p x = false) :
    (l ++ x :: t).takeWhile p = l ∧ (l ++ x :: t).dropWhile p = x :: t := by
  induction l with
  | nil => simp [List.takeWhile, List.dropWhile, hx]
  | cons a as ih =>
    have ha : p a = true := h a (by simp)
    have hrest : ∀ c ∈ as, p c = true := fun c hc => h c (by simp [hc])
    obtain ⟨h1, h2⟩ := ih hrest
    constructor
    · simp [List.takeWhile_cons, ha, h1]
    · simp [List.dropWhile_cons, ha, h2]

theorem splitLastUnd_append (xs ds : FName) (h : ∀ c ∈ ds, c ≠ '_') :
    splitLastUnd (xs ++ '_' :: ds) = some (xs, ds) := by
  rw [splitLastUnd]
  have hrev : (xs ++ '_' :: ds).reverse = ds.reverse ++ '_' :: xs.reverse := by
    simp [List.reverse_append]
  have hall : ∀ c ∈ ds.reverse, (c != '_') = true := by
    intro c hc
    simp only [bne_iff_ne, ne_eq]
    exact h c (List.mem_reverse.mp hc)
  obtain ⟨h1, h2⟩ := takeWhile_all_append (fun c => c != '_') ds.reverse xs.reverse '_'
    hall (by simp)
  rw [hrev, h2, h1]
  simp

theorem splitLastUnd_eq_some (cs r s : FName) (h : splitLastUnd cs = some (r, s)) :
    cs = r ++ '_' :: s ∧ ∀ c ∈ s, c ≠ '_' := by
  rw [splitLastUnd] at h
  split at h
  · next rest heq =>
    simp only [Option.some.injEq, Prod.mk.injEq] at h
    obtain ⟨hr, hs⟩ := h
    have hsplit := List.takeWhile_append_dropWhile (p := fun c => c != '_')
      (l := cs.reverse)
    rw [heq] at hsplit
    have hcs : cs = ((cs.reverse.takeWhile (fun c => c != '_')) ++ '_' :: rest).reverse := by
      rw [hsplit, List.reverse_reverse]
    constructor
    · rw [hcs, ← hr, ← hs]
      simp [List.reverse_append]
    · intro c hc heqc
      rw [← hs, List.mem_reverse] at hc
      have := List.mem_takeWhile_imp hc
      rw [heqc] at this
      simp at this
  · exact absurd h (by simp)

/-- Round-trip law of the naming scheme, for base names free of newline
characters (the dot of the regex does not match a newline, so a base name
containing one makes the parse fail). -/

theorem parseName_buildName (base : FName) (p : ParameterSet) (seed : Nat)
    (h : '\n' ∉ base) :
    parseName (buildName base p seed) = some (base, p, seed) := by
  have hb : buildName base p seed =
      (base ++ '_' :: natRepr p.octree ++ '_' :: natRepr p.num_inference_steps ++
        '_' :: natRepr p.guidance_scale ++ '_' :: natRepr p.face_count ++
        '_' :: natRepr seed) ++ glbExt := by
    rw [buildName]
  rw [parseName, hb, dropGlb_append]
  have h5 : splitLastUnd (base ++ '_' :: natRepr p.octree ++
      '_' :: natRepr p.num_inference_steps ++ '_' :: natRepr p.guidance_scale ++
      '_' :: natRepr p.face_count ++ '_' :: natRepr seed) =
      some (base ++ '_' :: natRepr p.octree ++ '_' :: natRepr p.num_inference_steps ++
        '_' :: natRepr p.guidance_scale ++ '_' :: natRepr p.face_count,
        natRepr seed) := by
    have := splitLastUnd_append (base ++ '_' :: natRepr p.octree ++
      '_' :: natRepr p.num_inference_steps ++ '_' :: natRepr p.guidance_scale ++
      '_' :: natRepr p.face_count) (natRepr seed) (natRepr_no_underscore seed)
    rw [← this]
  have h4 : splitLastUnd (base ++ '_' :: natRepr p.octree ++
      '_' :: natRepr p.num_inference_steps ++ '_' :: natRepr p.guidance_scale ++
      '_' :: natRepr p.face_count) =
      some (base ++ '_' :: natRepr p.octree ++ '_' :: natRepr p.num_inference_steps ++
        '_' :: natRepr p.guidance_scale, natRepr p.face_count) := by
    have := splitLastUnd_append (base ++ '_' :: natRepr p.octree ++
      '_' :: natRepr p.num_inference_steps ++ '_' :: natRepr p.guidance_scale)
      (natRepr p.face_count) (natRepr_no_underscore p.face_count)
    rw [← this]
  have h3 : splitLastUnd (base ++ '_' :: natRepr p.octree ++
      '_' :: natRepr p.num_inference_steps ++ '_' :: natRepr p.guidance_scale) =
      some (base ++ '_' :: natRepr p.octree ++ '_' :: natRepr p.num_inference_steps,
        natRepr p.guidance_scale) := by
    have := splitLastUnd_append (base ++ '_' :: natRepr p.octree ++
      '_' :: natRepr p.num_inference_steps) (natRepr p.guidance_scale)
      (natRepr_no_underscore p.guidance_scale)
    rw [← this]
  have h2 : splitLastUnd (base ++ '_' :: natRepr p.octree ++
      '_' :: natRepr p.num_inference_steps) =
      some (base ++ '_' :: natRepr p.octree, natRepr p.num_inference_steps) := by
    have := splitLastUnd_append (base ++ '_' :: natRepr p.octree)
      (natRepr p.num_inference_steps) (natRepr_no_underscore p.num_inference_steps)
    rw [← this]
  have h1 : splitLastUnd (base ++ '_' :: natRepr p.octree) =
      some (base, natRepr p.octree) :=
    splitLastUnd_append base (natRepr p.octree) (natRepr_no_underscore p.octree)
  simp only [Option.bind_eq_bind, Option.some_bind, h5, h4, h3, h2, h1,
    parseNat_natRepr]
  rw [if_neg h]

/-- Inversion of a successful parse: the filename decomposes into the
parsed base, five underscore-free digit segments, and the extension. -/

theorem parseName_eq_some (cs : FName) (b : FName) (p : ParameterSet) (s : Nat)
    (h : parseName cs = some (b, p, s)) :
    ∃ e1 e2 e3 e4 e5 : FName,
      cs = b ++ '_' :: e1 ++ '_' :: e2 ++ '_' :: e3 ++ '_' :: e4 ++ '_' :: e5 ++ glbExt ∧
      (∀ c ∈ e1, c ≠ '_') ∧ (∀ c ∈ e2, c ≠ '_') ∧ (∀ c ∈ e3, c ≠ '_') ∧
      (∀ c ∈ e4, c ≠ '_') ∧ (∀ c ∈ e5, c ≠ '_') ∧
      parseNat e1 = some p.octree ∧ parseNat e2 = some p.num_inference_steps ∧
      parseNat e3 = some p.guidance_scale ∧ parseNat e4 = some p.face_count ∧
      parseNat e5 = some s ∧ '\n' ∉ b := by
  rw [parseName] at h
  simp only [Option.bind_eq_bind, Option.bind_eq_some] at h
  obtain ⟨t, ht, h⟩ := h
  obtain ⟨⟨r1, e5⟩, hs1, h⟩ := h
  obtain ⟨sv, hsv, h⟩ := h
  obtain ⟨⟨r2, e4⟩, hs2, h⟩ := h
  obtain ⟨fv, hfv, h⟩ := h
  obtain ⟨⟨r3, e3⟩, hs3, h⟩ := h
  obtain ⟨gv, hgv, h⟩ := h
  obtain ⟨⟨r4, e2⟩, hs4, h⟩ := h
  obtain ⟨stv, hstv, h⟩ := h
  obtain ⟨⟨b', e1⟩, hs5, h⟩ := h
  obtain ⟨ov, hov, h⟩ := h
  by_cases hnl : '\n' ∈ b'
  · rw [if_pos hnl] at h
    exact absurd h (by simp)
  · rw [if_neg hnl] at h
    simp only [Option.some.injEq, Prod.mk.injEq] at h
    obtain ⟨hbb, hpp, hss⟩ := h
    obtain ⟨ht1, hu5⟩ := splitLastUnd_eq_some t r1 e5 hs1
    obtain ⟨ht2, hu4⟩ := splitLastUnd_eq_some r1 r2 e4 hs2
    obtain ⟨ht3, hu3⟩ := splitLastUnd_eq_some r2 r3 e3 hs3
    obtain ⟨ht4, hu2⟩ := splitLastUnd_eq_some r3 r4 e2 hs4
    obtain ⟨ht5, hu1⟩ := splitLastUnd_eq_some r4 b' e1 hs5
    refine ⟨e1, e2, e3, e4, e5, ?_, hu1, hu2, hu3, hu4, hu5, ?_, ?_, ?_, ?_, ?_, ?_⟩
    · rw [dropGlb_eq_some cs t ht, ht1, ht2, ht3, ht4, ht5, hbb]
    · rw [hov, ← hpp]
    · rw [hstv, ← hpp]
    · rw [hgv, ← hpp]
    · rw [hfv, ← hpp]
    · rw [hsv, hss]
    · rw [← hbb]; exact hnl

theorem matchesPat_iff (base : FName) (p : ParameterSet) (file : FName) :
    matchesPat base p file = true ↔
      ∃ mid : FName, file = patternHead base p ++ mid ++ glbExt := by
  rw [matchesPat, Bool.and_eq_true, List.isPrefixOf_iff_prefix,
    List.isSuffixOf_iff_suffix]
  constructor
  · rintro ⟨⟨rest, hrest⟩, hsuf⟩
    rw [← hrest, List.drop_left] at hsuf
    obtain ⟨mid, hmid⟩ := hsuf
    exact ⟨mid, by rw [← hrest, ← hmid, List.append_assoc]⟩
  · rintro ⟨mid, hmid⟩
    constructor
    · exact ⟨mid ++ glbExt, by rw [hmid, List.append_assoc]⟩
    · rw [hmid, List.append_assoc, List.drop_left]
      exact ⟨mid, rfl⟩

theorem buildName_decomp (base : FName) (p : ParameterSet) (s : Nat) :
    buildName base p s = patternHead base p ++ natRepr s ++ glbExt := by
  rw [buildName, patternHead]
  simp

theorem buildName_matchesPat (base : FName) (p : ParameterSet) (s : Nat) :
    matchesPat base p (buildName base p s) = true :=
  (matchesPat_iff base p (buildName base p s)).mpr ⟨natRepr s, buildName_decomp base p s⟩

/-- Two decompositions of a string at its first underscore agree when
neither left part contains an underscore. -/

theorem append_underscore_cancel (xs : FName) :
    ∀ ys u v : FName, (∀ c ∈ xs, c ≠ '_') → (∀ c ∈ ys, c ≠ '_') →
      xs ++ '_' :: u = ys ++ '_' :: v → xs = ys ∧ u = v := by
  induction xs with
  | nil =>
    intro ys u v _ hys h
    cases ys with
    | nil => simpa using h
    | cons y ys' =>
      simp only [List.nil_append, List.cons_append, List.cons.injEq] at h
      exact absurd h.1.symm (hys y (by simp))
  | cons x xs' ih =>
    intro ys u v hxs hys h
    cases ys with
    | nil =>
      simp only [List.nil_append, List.cons_append, List.cons.injEq] at h
      exact absurd h.1 (hxs x (by simp))
    | cons y ys' =>
      simp only [List.cons_append, List.cons.injEq] at h
      obtain ⟨hxy, h⟩ := h
      obtain ⟨h1, h2⟩ := ih ys' u v (fun c hc => hxs c (by simp [hc]))
        (fun c hc => hys c (by simp [hc])) h
      exact ⟨by rw [hxy, h1], h2⟩

/-- If a directory entry matches the glob pattern for a base name and a
target parameter set, and the entry parses under the naming scheme with a
parsed base name equal to that base name, then its embedded parameters
equal the target parameter set. -/

theorem countMatching_no_false_positive (base : FName) (p : ParameterSet)
    (file b' : FName) (p' : ParameterSet) (s' : Nat)
    (hm : matchesPat base p file = true)
    (hp : parseName file = some (b', p', s'))
    (hb : b' = base) : p' = p := by
  obtain ⟨mid, hmid⟩ := (matchesPat_iff base p file).mp hm
  obtain ⟨e1, e2, e3, e4, e5, hdec, hu1, hu2, hu3, hu4, _hu5, ho, hst, hg, hf, _hs, _hnl⟩ :=
    parseName_eq_some file b' p' s' hp
  subst hb
  rw [hmid, patternHead] at hdec
  simp only [List.append_assoc, List.cons_append, List.singleton_append,
    List.nil_append] at hdec
  have hc0 := List.append_cancel_left hdec
  simp only [List.cons.injEq, true_and] at hc0
  obtain ⟨q1, hrest1⟩ := append_underscore_cancel (natRepr p.octree) e1 _ _
    (natRepr_no_underscore p.octree) hu1 hc0
  obtain ⟨q2, hrest2⟩ := append_underscore_cancel (natRepr p.num_inference_steps) e2 _ _
    (natRepr_no_underscore p.num_inference_steps) hu2 hrest1
  obtain ⟨q3, hrest3⟩ := append_underscore_cancel (natRepr p.guidance_scale) e3 _ _
    (natRepr_no_underscore p.guidance_scale) hu3 hrest2
  obtain ⟨q4, _hrest4⟩ := append_underscore_cancel (natRepr p.face_count) e4 _ _
    (natRepr_no_underscore p.face_count) hu4 hrest3
  have f1 : p'.octree = p.octree := by
    rw [← q1, parseNat_natRepr] at ho
    exact (Option.some.inj ho).symm
  have f2 : p'.num_inference_steps = p.num_inference_steps := by
    rw [← q2, parseNat_natRepr] at hst
    exact (Option.some.inj hst).symm
  have f3 : p'.guidance_scale = p.guidance_scale := by
    rw [← q3, parseNat_natRepr] at hg
    exact (Option.some.inj hg).symm
  have f4 : p'.face_count = p.face_count := by
    rw [← q4, parseNat_natRepr] at hf
    exact (Option.some.inj hf).symm
  cases p' with
  | mk a b c d =>
    cases p with
    | mk a' b' c' d' =>
      simp only at f1 f2 f3 f4
      rw [f1, f2, f3, f4]

/-- C1.  A standard-mode run never completes: the call to process_image at
line 229 of process_folder supplies nine positional arguments while
process_image declares ten parameters without defaults, so Python raises
TypeError on the first image.  With the single valid image cat.png the
batch driver fails instead of invoking the Reconciliation Loop with
upscaleFlag false and producing the target number of artifacts. -/

theorem C1_process_folder_raises_typeerror :
    valid_image_file ("cat.png".data) = true ∧
      process_folder [("cat.png".data)] = Except.error PyErr.typeErr := by
  constructor
  · rfl
  · rfl

/-- C2 counterexample.  The round-trip law fails for a base name
containing a newline: the dot of the parsing regex does not match a
newline, so the built name fails to parse at all. -/

theorem C2_roundtrip_fails_on_newline_base :
    parseName (buildName ('a' :: '\n' :: 'b' :: []) ⟨256, 25, 7, 40000⟩ 42) ≠
      some (('a' :: '\n' :: 'b' :: []), ⟨256, 25, 7, 40000⟩, 42) := by
  decide

/-- C2 amended.  For every base name free of newline characters, every
parameter set and every seed, parsing the built artifact name returns
exactly the base name, the parameter set and the seed. -/

theorem C2_roundtrip_amended (base : FName) (p : ParameterSet) (seed : Nat)
    (h : '\n' ∉ base) :
    parseName (buildName base p seed) = some (base, p, seed) :=
  parseName_buildName base p seed h

/-- C2 witness. -/

theorem C2_roundtrip_amended_witness :
    '\n' ∉ ("cat".data) ∧
      parseName (buildName ("cat".data) ⟨256, 25, 7, 40000⟩ 42) =
        some (("cat".data), ⟨256, 25, 7, 40000⟩, 42) :=
  ⟨by decide, C2_roundtrip_amended ("cat".data) ⟨256, 25, 7, 40000⟩ 42 (by decide)⟩

/-- C3 counterexample.  The Existence Oracle produces a false positive:
for source base cat and target parameters 256/25/7/40000, the directory
holding only the artifact built from base cat_256_25_7_40000 with
parameters 384/30/9/20000 and seed 5 is counted as one match, although
that artifact parses to a different base name and different embedded
parameters. -/

theorem C3_oracle_false_positive :
    countMatching [buildName ("cat_256_25_7_40000".data) ⟨384, 30, 9, 20000⟩ 5]
        ("cat".data) ⟨256, 25, 7, 40000⟩ = 1 ∧
      parseName (buildName ("cat_256_25_7_40000".data) ⟨384, 30, 9, 20000⟩ 5) =
        some (("cat_256_25_7_40000".data), ⟨384, 30, 9, 20000⟩, 5) ∧
      (⟨384, 30, 9, 20000⟩ : ParameterSet) ≠ ⟨256, 25, 7, 40000⟩ ∧
      ("cat_256_25_7_40000".data) ≠ ("cat".data) := by
  refine ⟨by decide, by decide, by decide, by decide⟩

/-- C3 amended.  Every file counted by the Existence Oracle that parses
under the naming scheme with parsed base name equal to the source base
name has embedded parameters equal to the target parameter set; matched
files that fail to parse, or whose parsed base name differs, are the only
possible false positives. -/

theorem C3_oracle_no_false_positive_on_same_base (dir : List FName)
    (base : FName) (p : ParameterSet) (file b' : FName) (p' : ParameterSet)
    (s' : Nat)
    (hcount : file ∈ dir.filter (fun f => matchesPat base p f))
    (hp : parseName file = some (b', p', s'))
    (hb : b' = base) : p' = p :=
  countMatching_no_false_positive base p file b' p' s'
    (List.of_mem_filter hcount) hp hb

/-- C3 witness. -/

theorem C3_oracle_no_false_positive_witness :
    (buildName ("cat".data) ⟨256, 25, 7, 40000⟩ 42) ∈
        ([buildName ("cat".data) ⟨256, 25, 7, 40000⟩ 42].filter
          (fun f => matchesPat ("cat".data) ⟨256, 25, 7, 40000⟩ f)) ∧
      parseName (buildName ("cat".data) ⟨256, 25, 7, 40000⟩ 42) =
        some (("cat".data), ⟨256, 25, 7, 40000⟩, 42) ∧
      (⟨256, 25, 7, 40000⟩ : ParameterSet) = ⟨256, 25, 7, 40000⟩ :=
  ⟨by decide, by decide,
    C3_oracle_no_false_positive_on_same_base
      [buildName ("cat".data) ⟨256, 25, 7, 40000⟩ 42] ("cat".data)
      ⟨256, 25, 7, 40000⟩ (buildName ("cat".data) ⟨256, 25, 7, 40000⟩ 42)
      ("cat".data) ⟨256, 25, 7, 40000⟩ 42 (by decide) (by decide) rfl⟩

/-- C4.  The coercion of lines 303-305 tests Python truthiness of the
configured seed, and the integer 0 is falsy: with seed 0 and iterations 3
the iteration count is left at 3 and no warning is issued, while a
nonzero seed is coerced as the spec demands.  The enforcement is
therefore silently skipped for the configured seed 0. -/

theorem C4_seed_zero_not_coerced :
    coerce_iterations (some 0) 3 = (3, false) ∧
      coerce_iterations (some 5) 3 = (1, true) ∧
      coerce_iterations none 3 = (3, false) := by
  refine ⟨by decide, by decide, by decide⟩

/-- C5 counterexample.  random.randint is inclusive of both bounds, so
the draw of line 146 can return 10000000 itself, which does not satisfy
the strict upper bound of the claim. -/

theorem C5_randint_includes_upper_bound :
    randint_support 0 10000000 10000000 ∧ ¬ ((10000000 : Int) < 10000000) := by
  constructor
  · exact ⟨by norm_num, le_refl _⟩
  · omega

/-- C5 amended.  With no fixed seed configured, the seed used by a
generation attempt is the fresh draw, and every value the draw can take
lies in the closed interval from 0 to 10000000 inclusive. -/

theorem C5_drawn_seed_in_closed_interval (d : Nat)
    (h : randint_support 0 10000000 (d : Int)) :
    seed_current none d = d ∧ (0 : Int) ≤ (d : Int) ∧ (d : Int) ≤ 10000000 :=
  ⟨rfl, h.1, h.2⟩

/-- C5 witness, at the inclusive upper bound itself. -/

theorem C5_drawn_seed_witness :
    randint_support 0 10000000 ((10000000 : Nat) : Int) ∧
      (seed_current none 10000000 = 10000000 ∧
        (0 : Int) ≤ ((10000000 : Nat) : Int) ∧
        ((10000000 : Nat) : Int) ≤ 10000000) :=
  ⟨⟨by norm_num, by norm_num⟩,
    C5_drawn_seed_in_closed_interval 10000000 ⟨by norm_num, by norm_num⟩⟩

theorem loopBody_skip (base : FName) (seed : Option Nat) (p : ParameterSet)
    (st : LoopSt) (a : Attempt)
    (hmem : buildName base p (seed_current seed a.draw) ∈ st.dir) :
    loopBody base seed p st a =
      ⟨st.dir, st.count, st.events ++ [LoopEvent.skipExisting], st.requests⟩ := by
  simp [loopBody, hmem]

theorem loopBody_netFail (base : FName) (seed : Option Nat) (p : ParameterSet)
    (st : LoopSt) (a : Attempt) (hnet : a.netOk = false)
    (hmem : buildName base p (seed_current seed a.draw) ∉ st.dir) :
    loopBody base seed p st a =
      ⟨st.dir, st.count, st.events ++ [LoopEvent.requestFailed], st.requests + 1⟩ := by
  simp [loopBody, hmem, hnet]

theorem loopBody_saved (base : FName) (seed : Option Nat) (p : ParameterSet)
    (st : LoopSt) (a : Attempt) (hnet : a.netOk = true) (hw : a.writeOk = true)
    (hmem : buildName base p (seed_current seed a.draw) ∉ st.dir) :
    loopBody base seed p st a =
      ⟨buildName base p (seed_current seed a.draw) :: st.dir, st.count + 1,
        st.events ++ [LoopEvent.saved], st.requests + 1⟩ := by
  simp [loopBody, hmem, hnet, hw]

theorem loopBody_saveFailed (base : FName) (seed : Option Nat) (p : ParameterSet)
    (st : LoopSt) (a : Attempt) (hnet : a.netOk = true) (hw : a.writeOk = false)
    (hmem : buildName base p (seed_current seed a.draw) ∉ st.dir) :
    loopBody base seed p st a =
      ⟨st.dir, st.count + 1, st.events ++ [LoopEvent.saveFailed],
        st.requests + 1⟩ := by
  simp [loopBody, hmem, hnet, hw]

/-- C6.  Under a fixed configured seed, whenever the candidate artifact
name already exists in the output directory while the continuation
condition holds, the loop never terminates: every pass rebuilds the same
candidate name, takes the skip branch, leaves the directory, the count
and the request tally unchanged, and so the condition never changes.  For
every number of passes the loop is still running with only skip events
accumulated. -/

theorem C6_fixed_seed_collision_never_terminates (base : FName) (iters : Nat)
    (up : Bool) (p : ParameterSet) (s : Nat) :
    ∀ (attempts : List Attempt) (st : LoopSt),
      buildName base p s ∈ st.dir →
      condition up iters base p st.dir = true →
      runLoop base iters (some s) p up attempts st =
        RunResult.outOfFuel
          ⟨st.dir, st.count,
            st.events ++ List.replicate attempts.length LoopEvent.skipExisting,
            st.requests⟩ := by
  intro attempts
  induction attempts with
  | nil =>
    intro st hmem hcond
    rw [runLoop, if_pos hcond]
    simp
  | cons a rest ih =>
    intro st hmem hcond
    rw [runLoop, if_pos hcond]
    have hsc : seed_current (some s) a.draw = s := rfl
    rw [loopBody_skip base (some s) p st a (by rw [hsc]; exact hmem)]
    rw [ih ⟨st.dir, st.count, st.events ++ [LoopEvent.skipExisting], st.requests⟩
      hmem hcond]
    simp [List.replicate_succ]

/-- C6 witness: with fixed seed 0, three desired iterations and the
candidate file already on disk, two further passes leave the loop still
running in the identical state apart from two logged skips. -/

theorem C6_collision_witness :
    (buildName ("cat".data) ⟨256, 25, 7, 40000⟩ 0 ∈
        [buildName ("cat".data) ⟨256, 25, 7, 40000⟩ 0] ∧
      condition false 3 ("cat".data) ⟨256, 25, 7, 40000⟩
        [buildName ("cat".data) ⟨256, 25, 7, 40000⟩ 0] = true) ∧
      runLoop ("cat".data) 3 (some 0) ⟨256, 25, 7, 40000⟩ false
          [⟨1, true, true⟩, ⟨2, true, true⟩]
          ⟨[buildName ("cat".data) ⟨256, 25, 7, 40000⟩ 0], 0, [], 0⟩ =
        RunResult.outOfFuel
          ⟨[buildName ("cat".data) ⟨256, 25, 7, 40000⟩ 0], 0,
            [] ++ List.replicate 2 LoopEvent.skipExisting, 0⟩ :=
  ⟨⟨by decide, by decide⟩,
    C6_fixed_seed_collision_never_terminates ("cat".data) 3 false
      ⟨256, 25, 7, 40000⟩ 0 [⟨1, true, true⟩, ⟨2, true, true⟩]
      ⟨[buildName ("cat".data) ⟨256, 25, 7, 40000⟩ 0], 0, [], 0⟩
      (by decide) (by decide)⟩

/-- C7.  In upscale mode, a parsed artifact is skipped as matching the
current settings exactly when its parsed octree resolution, inference
steps and guidance scale are each at least the configured target value;
the face count fields of the artifact and of the target play no role in
the comparison. -/

theorem C7_upscale_skip_iff (inputFiles : List FName) (target : ParameterSet)
    (file b : FName) (fp : ParameterSet) (s : Nat)
    (hparse : parseName file = some (b, fp, s)) :
    ((upscale_file_action inputFiles target file = UpscaleAction.skipAdequate) ↔
        (target.octree ≤ fp.octree ∧
          target.num_inference_steps ≤ fp.num_inference_steps ∧
          target.guidance_scale ≤ fp.guidance_scale)) ∧
      (∀ fc fc' : Nat,
        matches_current_settings ⟨fp.octree, fp.num_inference_steps, fp.guidance_scale, fc⟩
            ⟨target.octree, target.num_inference_steps, target.guidance_scale, fc'⟩ =
          matches_current_settings fp target) := by
  constructor
  · simp only [upscale_file_action, hparse]
    by_cases hm : matches_current_settings fp target = true
    · rw [if_pos hm]
      simp only [matches_current_settings, Bool.and_eq_true, decide_eq_true_eq] at hm
      constructor
      · intro _
        exact ⟨hm.1.1, hm.1.2, hm.2⟩
      · intro _
        rfl
    · rw [if_neg hm]
      simp only [matches_current_settings, Bool.and_eq_true, decide_eq_true_eq] at hm
      constructor
      · intro hact
        exfalso
        cases hfind : find_source_image inputFiles b with
        | none =>
          rw [hfind] at hact
          exact absurd hact (by simp)
        | some img =>
          rw [hfind] at hact
          exact absurd hact (by simp)
      · intro hle
        exact absurd ⟨⟨hle.1, hle.2.1⟩, hle.2.2⟩ hm
  · intro fc fc'
    rfl

/-- C7 witness: an artifact parsed as 512/30/8 with face count 1 is
skipped against target 384/25/7 with face count 40000. -/

theorem C7_upscale_skip_witness :
    parseName (buildName ("cat".data) ⟨512, 30, 8, 1⟩ 7) =
        some (("cat".data), ⟨512, 30, 8, 1⟩, 7) ∧
      ((upscale_file_action [] ⟨384, 25, 7, 40000⟩
            (buildName ("cat".data) ⟨512, 30, 8, 1⟩ 7) = UpscaleAction.skipAdequate) ↔
          ((384 : Nat) ≤ 512 ∧ (25 : Nat) ≤ 30 ∧ (7 : Nat) ≤ 8)) :=
  ⟨by decide,
    (C7_upscale_skip_iff [] ⟨384, 25, 7, 40000⟩
      (buildName ("cat".data) ⟨512, 30, 8, 1⟩ 7) ("cat".data) ⟨512, 30, 8, 1⟩ 7
      (by decide)).1⟩

/-- C8.  In upscale mode, an under-target artifact whose source image is
located triggers exactly the invocation with one iteration, the seed
parsed from the artifact name, the configured target parameter set and
the upscale flag set; with that fixed seed every pass of the loop uses
the parsed seed and never the fresh random draw. -/

theorem C8_upscale_regen_call (inputFiles : List FName) (target : ParameterSet)
    (file b : FName) (fp : ParameterSet) (s : Nat) (img : FName)
    (hparse : parseName file = some (b, fp, s))
    (hunder : matches_current_settings fp target = false)
    (hfound : find_source_image inputFiles b = some img) :
    upscale_file_action inputFiles target file =
        UpscaleAction.regen ⟨img, 1, some s, target, true⟩ ∧
      (∀ d : Nat, seed_current (some s) d = s) := by
  constructor
  · simp only [upscale_file_action, hparse, hunder, Bool.false_eq_true,
      if_false, hfound]
  · intro d
    rfl

/-- C8 witness: the artifact cat_256_20_5_40000_77.glb under target
384/25/7/40000 with source image cat.png present. -/

theorem C8_upscale_regen_witness :
    parseName (buildName ("cat".data) ⟨256, 20, 5, 40000⟩ 77) =
        some (("cat".data), ⟨256, 20, 5, 40000⟩, 77) ∧
      upscale_file_action [("cat.png".data)] ⟨384, 25, 7, 40000⟩
          (buildName ("cat".data) ⟨256, 20, 5, 40000⟩ 77) =
        UpscaleAction.regen ⟨("cat.png".data), 1, some 77, ⟨384, 25, 7, 40000⟩, true⟩ :=
  ⟨by decide,
    (C8_upscale_regen_call [("cat.png".data)] ⟨384, 25, 7, 40000⟩
      (buildName ("cat".data) ⟨256, 20, 5, 40000⟩ 77) ("cat".data)
      ⟨256, 20, 5, 40000⟩ 77 ("cat.png".data) (by decide) (by decide)
      (by decide)).1⟩

/-- C9.  Generation failure is recoverable and only an unreadable source
image aborts an image: an unreadable image makes process_image return
without running the loop; a readable image never aborts; a failing
request on a fresh candidate leaves the directory and the count
unchanged, logs the failure, tallies the request and continues; and a run
of any number of consecutive failing attempts keeps the loop running with
the state otherwise unchanged, so no attempt limit or backoff exists. -/

theorem C9_generation_failure_recoverable :
    (∀ (base : FName) (iters : Nat) (seed : Option Nat) (p : ParameterSet)
        (up : Bool) (dir : List FName) (attempts : List Attempt),
        process_image false base iters seed p up dir attempts = none) ∧
      (∀ (base : FName) (iters : Nat) (seed : Option Nat) (p : ParameterSet)
        (up : Bool) (dir : List FName) (attempts : List Attempt),
        process_image true base iters seed p up dir attempts ≠ none) ∧
      (∀ (base : FName) (seed : Option Nat) (p : ParameterSet) (st : LoopSt)
        (a : Attempt), a.netOk = false →
        buildName base p (seed_current seed a.draw) ∉ st.dir →
        loopBody base seed p st a =
          ⟨st.dir, st.count, st.events ++ [LoopEvent.requestFailed],
            st.requests + 1⟩) ∧
      (∀ (base : FName) (iters : Nat) (seed : Option Nat) (p : ParameterSet)
        (up : Bool) (attempts : List Attempt) (st : LoopSt),
        (∀ a ∈ attempts, a.netOk = false ∧
          buildName base p (seed_current seed a.draw) ∉ st.dir) →
        condition up iters base p st.dir = true →
        runLoop base iters seed p up attempts st =
          RunResult.outOfFuel
            ⟨st.dir, st.count,
              st.events ++ List.replicate attempts.length LoopEvent.requestFailed,
              st.requests + attempts.length⟩) := by
  refine ⟨?_, ?_, ?_, ?_⟩
  · intro base iters seed p up dir attempts
    rw [process_image, if_pos rfl]
  · intro base iters seed p up dir attempts
    rw [process_image, if_neg (by simp)]
    by_cases h : iters ≤ countMatching dir base p
    · rw [if_pos h]
      simp
    · rw [if_neg h]
      simp
  · intro base seed p st a hnet hmem
    exact loopBody_netFail base seed p st a hnet hmem
  · intro base iters seed p up attempts
    induction attempts with
    | nil =>
      intro st _ hcond
      rw [runLoop, if_pos hcond]
      simp
    | cons a rest ih =>
      intro st hall hcond
      rw [runLoop, if_pos hcond]
      obtain ⟨hnet, hmem⟩ := hall a (by simp)
      rw [loopBody_netFail base seed p st a hnet hmem]
      rw [ih ⟨st.dir, st.count, st.events ++ [LoopEvent.requestFailed],
        st.requests + 1⟩ (fun a' ha' => (hall a' (by simp [ha']))) hcond]
      simp [List.replicate_succ]
      omega

/-- C9 witness: one failing attempt on an empty directory with three
desired iterations leaves the loop running, the directory empty and the
count at zero, with the failure logged and one request tallied. -/

theorem C9_generation_failure_witness :
    ((∀ a ∈ [(⟨5, false, true⟩ : Attempt)], a.netOk = false ∧
        buildName ("cat".data) ⟨256, 25, 7, 40000⟩
          (seed_current none a.draw) ∉ ([] : List FName)) ∧
      condition false 3 ("cat".data) ⟨256, 25, 7, 40000⟩ [] = true) ∧
      runLoop ("cat".data) 3 none ⟨256, 25, 7, 40000⟩ false
          [⟨5, false, true⟩] ⟨[], 0, [], 0⟩ =
        RunResult.outOfFuel
          ⟨[], 0, [] ++ List.replicate 1 LoopEvent.requestFailed, 0 + 1⟩ :=
  ⟨⟨by decide, by decide⟩,
    C9_generation_failure_recoverable.2.2.2 ("cat".data) 3 none
      ⟨256, 25, 7, 40000⟩ false [⟨5, false, true⟩] ⟨[], 0, [], 0⟩
      (by decide) (by decide)⟩

theorem runLoop_upscale_count_le (base : FName) (seed : Option Nat)
    (p : ParameterSet) (iters : Nat) :
    ∀ (attempts : List Attempt) (st : LoopSt),
      countMatching ((runLoop base iters seed p true attempts st).st).dir base p ≤
        max (countMatching st.dir base p) 1 := by
  intro attempts
  induction attempts with
  | nil =>
    intro st
    rw [runLoop]
    by_cases hc : condition true iters base p st.dir = true
    · rw [if_pos hc]
      exact le_max_left _ _
    · rw [if_neg hc]
      exact le_max_left _ _
  | cons a rest ih =>
    intro st
    rw [runLoop]
    by_cases hc : condition true iters base p st.dir = true
    · rw [if_pos hc]
      have hzero : countMatching st.dir base p = 0 := by
        simpa [condition] using hc
      have hle : countMatching (loopBody base seed p st a).dir base p ≤ 1 := by
        by_cases hmem : buildName base p (seed_current seed a.draw) ∈ st.dir
        · rw [loopBody_skip base seed p st a hmem]
          show countMatching st.dir base p ≤ 1
          omega
        · by_cases hnet : a.netOk = true
          · by_cases hw : a.writeOk = true
            · rw [loopBody_saved base seed p st a hnet hw hmem]
              show countMatching
                (buildName base p (seed_current seed a.draw) :: st.dir) base p ≤ 1
              have : countMatching
                  (buildName base p (seed_current seed a.draw) :: st.dir) base p =
                  countMatching st.dir base p + 1 := by
                rw [countMatching, countMatching, List.filter_cons,
                  if_pos (buildName_matchesPat base p (seed_current seed a.draw))]
                rfl
              omega
            · rw [loopBody_saveFailed base seed p st a hnet
                (Bool.not_eq_true a.writeOk ▸ hw) hmem]
              show countMatching st.dir base p ≤ 1
              omega
          · rw [loopBody_netFail base seed p st a
              (Bool.not_eq_true a.netOk ▸ hnet) hmem]
            show countMatching st.dir base p ≤ 1
            omega
      calc countMatching ((runLoop base iters seed p true rest
              (loopBody base seed p st a)).st).dir base p
          ≤ max (countMatching (loopBody base seed p st a).dir base p) 1 := ih _
        _ ≤ 1 := by omega
        _ ≤ max (countMatching st.dir base p) 1 := le_max_right _ _
    · rw [if_neg hc]
      exact le_max_left _ _

/-- C10.  In upscale mode with one iteration, once any artifact matching
the target pattern exists for a base name, a further process_image
invocation returns immediately through the early exit of lines 123-128,
issues zero requests and leaves the directory unchanged; and any upscale
invocation leaves at most max(initial, 1) matching artifacts, so at most
one new matching artifact per base name is ever created. -/

theorem C10_upscale_at_most_one_new_artifact :
    (∀ (base : FName) (p : ParameterSet) (s : Nat) (dir : List FName)
        (attempts : List Attempt), 1 ≤ countMatching dir base p →
        process_image true base 1 (some s) p true dir attempts =
          some (RunResult.finished ⟨dir, 0, [LoopEvent.earlyExit], 0⟩)) ∧
      (∀ (base : FName) (p : ParameterSet) (s : Nat) (dir : List FName)
        (attempts : List Attempt) (r : RunResult),
        process_image true base 1 (some s) p true dir attempts = some r →
        countMatching (r.st).dir base p ≤ max (countMatching dir base p) 1) := by
  constructor
  · intro base p s dir attempts h
    rw [process_image, if_neg (by simp), if_pos h]
  · intro base p s dir attempts r hr
    rw [process_image, if_neg (by simp)] at hr
    by_cases h : 1 ≤ countMatching dir base p
    · rw [if_pos h] at hr
      have := Option.some.inj hr
      rw [← this]
      exact le_max_left _ _
    · rw [if_neg h] at hr
      have := Option.some.inj hr
      rw [← this]
      exact runLoop_upscale_count_le base (some s) p 1 attempts ⟨dir, 0, [], 0⟩

/-- C10 witness: with one matching artifact already present, the upscale
invocation early-exits with zero requests and an unchanged directory. -/

theorem C10_upscale_early_exit_witness :
    1 ≤ countMatching [buildName ("cat".data) ⟨384, 25, 7, 40000⟩ 9]
        ("cat".data) ⟨384, 25, 7, 40000⟩ ∧
      process_image true ("cat".data) 1 (some 9) ⟨384, 25, 7, 40000⟩ true
          [buildName ("cat".data) ⟨384, 25, 7, 40000⟩ 9] [⟨1, true, true⟩] =
        some (RunResult.finished
          ⟨[buildName ("cat".data) ⟨384, 25, 7, 40000⟩ 9], 0,
            [LoopEvent.earlyExit], 0⟩) :=
  ⟨by decide,
    C10_upscale_at_most_one_new_artifact.1 ("cat".data) ⟨384, 25, 7, 40000⟩ 9
      [buildName ("cat".data) ⟨384, 25, 7, 40000⟩ 9] [⟨1, true, true⟩]
      (by decide)⟩
